import Mathlib

/-!
Verification of the chatIA content-security core against its source.

The development shallowly embeds the Go code of the repository:

* `SecurityService` (rule engine) from `internal/config/config.go`
  (`ReloadFilters`, `checkContent`, `CheckInput`, `CheckOutput`) together
  with the SQL query `GetActiveSecurityFilters` (`ORDER BY severity DESC,
  name ASC` over a TEXT severity column, i.e. byte-wise string comparison)
  and the `security_filters` schema.
* `OllamaService` (inference client) from `internal/services/ollama.go`
  (`Chat` with its retry/backoff loop, `ChatStreamWithModel`, model
  selection).
* the AI handler (`SendMessage`, `SendMessageStream`, `getKnowledgeContext`,
  `enrichMessageWithURLContent` call sites) from the handlers file.

Go strings are modelled as Lean `String`s, with the Go string primitives
(`strings.ToLower`, `strings.Contains`, `strings.Split`, `strings.TrimSpace`
on the ASCII fragment relevant here) implemented over the underlying
character lists so that all definitions evaluate.  Go's `regexp` is kept
abstract: a compile oracle `String → Option (String → String)` stands for
`regexp.Compile`, where a compiled regex is its `FindString` function
(returning `""` for "no match", exactly as the Go code tests).  Network
traffic is explicit data: the upstream server is an oracle from attempt
number to outcome, and every model records which requests were made.
-/

namespace ChatIA

/-! ## Go string primitives over character lists -/

/-- Byte-wise (code-point-wise) strict lexicographic comparison of strings,
modelling SQLite's default BINARY collation used by `ORDER BY` in
`GetActiveSecurityFilters`.  UTF-8 byte order coincides with code-point
order. -/
def ltL : List Char → List Char → Bool
  | [], [] => false
  | [], _ :: _ => true
  | _ :: _, [] => false
  | a :: as, b :: bs =>
    if a.toNat < b.toNat then true
    else if b.toNat < a.toNat then false
    else ltL as bs

/-- Go `strings.Contains hay needle` (substring test). -/
def containsL : List Char → List Char → Bool
  | [], n => n.isEmpty
  | h :: t, n => List.isPrefixOf n (h :: t) || containsL t n

/-- Go `strings.Split s ","` (the separator used for keyword patterns). -/
def splitComma : List Char → List (List Char)
  | [] => [[]]
  | c :: t =>
    if c = ',' then [] :: splitComma t
    else
      match splitComma t with
      | [] => [[c]]
      | g :: gs => (c :: g) :: gs

/-- White-space predicate of Go `strings.TrimSpace` (ASCII fragment). -/
def isGoSpace (c : Char) : Bool :=
  c = ' ' || c = '\t' || c = '\n' || c = '\x0b' || c = '\x0c' || c = '\r'

/-- Go `strings.TrimSpace` (ASCII fragment). -/
def trimL (l : List Char) : List Char :=
  ((l.dropWhile isGoSpace).reverse.dropWhile isGoSpace).reverse

/-- Go `strings.ToLower` (ASCII fragment; the Go original also folds
non-ASCII letters, which no rule or scenario in scope uses). -/
def goToLower (s : String) : String :=
  ⟨s.data.map Char.toLower⟩

/-- Go `strings.Contains` on strings. -/
def goContains (s sub : String) : Bool :=
  containsL s.data sub.data

/-! ## Rule engine data model (config.go and the security_filters schema) -/

/-- A row of the `security_filters` table as returned by sqlc: `applies_to`,
`severity` and `description` are nullable TEXT columns (`sql.NullString`). -/
structure FilterRow where
  id : Int
  name : String
  description : Option String
  filterType : String
  pattern : String
  action : String
  appliesTo : Option String
  severity : Option String
  isActive : Bool
deriving DecidableEq

/-- Go helper `stringValue` from config.go: `sql.NullString` to `string`. -/
def stringValue : Option String → String
  | some s => s
  | none => ""

/-- In-memory `SecurityFilter` built by `ReloadFilters`.  `compiled` is the
`FindString` function of the compiled regex (present only for regex rules
that compiled), `keywords` the lower-cased, trimmed comma-terms (present
only for keyword rules). -/
structure SecurityFilter where
  id : Int
  name : String
  description : String
  filterType : String
  pattern : String
  action : String
  appliesTo : String
  severity : String
  compiled : Option (String → String)
  keywords : List String

/-- `FilterResult` from config.go. -/
structure FilterResult where
  blocked : Bool
  filterID : Int
  filterName : String
  action : String
  severity : String
  reason : String
  matchedText : String
deriving DecidableEq

/-- The per-row body of the `ReloadFilters` loop: builds the in-memory
filter; a regex rule whose pattern fails to compile yields `none`
(the Go `continue` that drops the rule), a keyword rule gets its
lower-cased, trimmed comma-terms, any other type is stored as-is. -/
def loadFilter (compile : String → Option (String → String)) (f : FilterRow) :
    Option SecurityFilter :=
  let sf : SecurityFilter :=
    { id := f.id, name := f.name, description := stringValue f.description,
      filterType := f.filterType, pattern := f.pattern, action := f.action,
      appliesTo := stringValue f.appliesTo, severity := stringValue f.severity,
      compiled := none, keywords := [] }
  match f.filterType with
  | "regex" =>
    match compile f.pattern with
    | none => none
    | some re => some { sf with compiled := some re }
  | "keyword" =>
    some { sf with
      keywords := (splitComma (goToLower f.pattern).data).map (fun t => ⟨trimL t⟩) }
  | _ => some sf

/-- The loop of `ReloadFilters` over the fetched rows. -/
def reloadFilters (compile : String → Option (String → String))
    (rows : List FilterRow) : List SecurityFilter :=
  rows.filterMap (loadFilter compile)

/-- `ReloadFilters` including its only error path: a failing
`GetActiveSecurityFilters` DB fetch is returned as the error; otherwise the
compiled set is installed and `nil` is returned. -/
def reloadFiltersE (compile : String → Option (String → String))
    (fetched : Except String (List FilterRow)) :
    Except String (List SecurityFilter) :=
  match fetched with
  | .error e => .error e
  | .ok rows => .ok (reloadFilters compile rows)

/-- Ordering of the SQL `ORDER BY severity DESC, name ASC` in
`GetActiveSecurityFilters`: severity is a TEXT column, so `DESC` is
byte-wise descending on the severity string (nulls compare as `""` after
`stringValue`; SQLite sorts NULL first under DESC, but no claim involves a
NULL severity together with another row, and the Go struct stores
`stringValue`). -/
def rowLe (a b : FilterRow) : Prop :=
  ltL (stringValue b.severity).data (stringValue a.severity).data = true ∨
    ((stringValue a.severity).data = (stringValue b.severity).data ∧
      ltL b.name.data a.name.data = false)

instance : DecidableRel rowLe := fun a b => by unfold rowLe; infer_instance

/-- The `GetActiveSecurityFilters` query: active rows ordered by severity
string descending, then name ascending. -/
def getActiveSecurityFilters (rows : List FilterRow) : List FilterRow :=
  List.insertionSort rowLe (rows.filter (·.isActive))

/-- The full rule-set load path: fetch active rows in SQL order, then
compile them (`NewSecurityService` / admin reload both go through this). -/
def activePipeline (compile : String → Option (String → String))
    (rows : List FilterRow) : List SecurityFilter :=
  reloadFilters compile (getActiveSecurityFilters rows)

/-- Construction of the `FilterResult` in `checkContent` once a filter
matched: the `switch filter.Action` sets `Blocked` and `Reason`; any other
action string leaves the Go zero values (`false`, `""`). -/
def mkFilterResult (f : SecurityFilter) (matchedText : String) : FilterResult :=
  { blocked := f.action == "block",
    filterID := f.id, filterName := f.name, action := f.action,
    severity := f.severity, matchedText := matchedText,
    reason :=
      match f.action with
      | "block" => "Contenido bloqueado por politica de seguridad: " ++ f.name
      | "warn" => "Advertencia de seguridad: " ++ f.name
      | "log" => "Contenido registrado: " ++ f.name
      | _ => "" }

/-- The match test of one filter in `checkContent`'s loop body (the
`switch filter.FilterType`), returning the matched text on success:
regex rules run `FindString` on the raw content and match when the result
is non-empty; keyword rules take the first comma-term contained in the
lower-cased content; category rules test the lower-cased pattern against
the lower-cased content. -/
def matchFilter (f : SecurityFilter) (content contentLower : String) :
    Option String :=
  match f.filterType with
  | "regex" =>
    match f.compiled with
    | some re => if re content ≠ "" then some (re content) else none
    | none => none
  | "keyword" => f.keywords.find? (fun k => goContains contentLower k)
  | "category" =>
    if goContains contentLower (goToLower f.pattern) then some f.pattern
    else none
  | _ => none

/-- One full iteration of `checkContent`'s loop: the `AppliesTo` guard
(`continue` unless the rule applies to the direction or to `both`), the
match test, and the result construction. -/
def evalFilter (content contentLower direction : String)
    (f : SecurityFilter) : Option FilterResult :=
  if f.appliesTo ≠ "both" ∧ f.appliesTo ≠ direction then none
  else (matchFilter f content contentLower).map (mkFilterResult f)

/-- `checkContent`: iterate the installed filters in order and return the
first filter's verdict that applies and matches, or `nil`. -/
def checkContent (filters : List SecurityFilter) (content direction : String) :
    Option FilterResult :=
  filters.findSome? (evalFilter content (goToLower content) direction)

/-- `CheckInput`. -/
def checkInput (filters : List SecurityFilter) (content : String) :
    Option FilterResult :=
  checkContent filters content "input"

/-- `CheckOutput`. -/
def checkOutput (filters : List SecurityFilter) (content : String) :
    Option FilterResult :=
  checkContent filters content "output"

/-! ## Inference client (ollama.go) -/

/-- A chat message as sent to the inference server. -/
structure GoMsg where
  role : String
  content : String
deriving DecidableEq

/-- Outcome of one HTTP attempt against the inference server: a transport
failure, or a response with its status; for a 200 response `content` is the
decoded `message.content` of the chat response, otherwise the error body. -/
inductive UpstreamResult where
  | connError
  | http (status : Nat) (content : String)
deriving DecidableEq

/-- Errors of the client, mirroring the Go error values (connection error,
`ollama error <status>: <body>`, and the degenerate zero-retries loop exit). -/
inductive ChatErr where
  | connFail
  | httpErr (status : Nat) (body : String)
  | noAttempt
deriving DecidableEq

/-- Default `OLLAMA_RETRIES` from config.Load (env var absent). -/
def defaultOllamaRetries : Nat := 3

/-- Fixed refusal returned by `Chat` when the output check blocks. -/
def chatRefusal : String := "Lo siento, no puedo proporcionar esa informacion."

/-- The retry loop of `Chat` (`for attempt := 0; attempt < retries; ...`):
on attempts after the first, wait `1<<(attempt-1)` seconds (recorded in
`waits`); a connection error or a 5xx response stores the error and
retries; a 200 breaks with the decoded content; any other status stores the
error and breaks.  Returns (number of requests actually sent, backoff waits
in seconds, final outcome). -/
def chatAttemptLoop (outcomes : Nat → UpstreamResult) :
    Nat → Nat → Nat → List Nat → Option ChatErr →
    Nat × List Nat × Except ChatErr String
  | 0, _, made, waits, lastErr =>
    (made, waits, .error (lastErr.getD .noAttempt))
  | fuel + 1, attempt, made, waits, lastErr =>
    let _ := lastErr
    let waits := if attempt > 0 then waits ++ [2 ^ (attempt - 1)] else waits
    match outcomes attempt with
    | .connError =>
      chatAttemptLoop outcomes fuel (attempt + 1) (made + 1) waits
        (some .connFail)
    | .http status body =>
      if status == 200 then (made + 1, waits, .ok body)
      else if status ≥ 500 then
        chatAttemptLoop outcomes fuel (attempt + 1) (made + 1) waits
          (some (.httpErr status body))
      else (made + 1, waits, .error (.httpErr status body))

/-- Result of a `Chat` call, with the observable effects made explicit:
the returned triple (`text`, `verdict`, `error`), how many HTTP requests
were sent, the backoff waits performed, the `model` field of the request
body (if any request was built), and the `messages` field of the request
body (empty if the call returned before assembling the request). -/
structure ChatRet where
  text : String
  verdict : Option FilterResult
  error : Option ChatErr
  attempts : Nat
  waits : List Nat
  requestModel : Option String
  sentMessages : List GoMsg
deriving DecidableEq

/-- The input-direction guard shared by `Chat` and `ChatStreamWithModel`:
if the message list is non-empty and its last element has role `user`,
`CheckInput` runs on that content, and a blocked verdict is returned;
a non-blocked verdict (warn/log) falls through. -/
def inputBlockVerdict (filters : List SecurityFilter) (messages : List GoMsg) :
    Option FilterResult :=
  match messages.getLast? with
  | none => none
  | some m =>
    if m.role = "user" then
      match checkInput filters m.content with
      | some r => if r.blocked then some r else none
      | none => none
    else none

/-- `OllamaService.Chat`: input guard, then system-prompt prepend, then the
retry loop against the upstream oracle with the globally selected model,
then the output check (blocked output is replaced by the fixed refusal). -/
def chatModel (filters : List SecurityFilter) (systemPrompt globalModel : String)
    (retries : Nat) (outcomes : Nat → UpstreamResult)
    (messages : List GoMsg) : ChatRet :=
  match inputBlockVerdict filters messages with
  | some r =>
    { text := "", verdict := some r, error := none, attempts := 0,
      waits := [], requestModel := none, sentMessages := [] }
  | none =>
    let messagesWithSystem := ⟨"system", systemPrompt⟩ :: messages
    let (made, waits, res) := chatAttemptLoop outcomes retries 0 0 [] none
    match res with
    | .error e =>
      { text := "", verdict := none, error := some e, attempts := made,
        waits := waits, requestModel := some globalModel,
        sentMessages := messagesWithSystem }
    | .ok content =>
      match checkOutput filters content with
      | some r =>
        if r.blocked then
          { text := chatRefusal, verdict := some r, error := none,
            attempts := made, waits := waits,
            requestModel := some globalModel,
            sentMessages := messagesWithSystem }
        else
          { text := content, verdict := none, error := none,
            attempts := made, waits := waits,
            requestModel := some globalModel,
            sentMessages := messagesWithSystem }
      | none =>
        { text := content, verdict := none, error := none, attempts := made,
          waits := waits, requestModel := some globalModel,
          sentMessages := messagesWithSystem }

/-- Result of a `ChatStreamWithModel` call: returned verdict and error,
the `model` field of the streaming request (if one was sent), the contents
passed to `onChunk` in order, and the texts on which `CheckOutput` was
invoked during the call. -/
structure StreamRet where
  verdict : Option FilterResult
  error : Option ChatErr
  requestModel : Option String
  chunks : List String
  outputChecks : List String
  sentMessages : List GoMsg
deriving DecidableEq

/-- The scanner loop of `ChatStreamWithModel` over the newline-delimited
response body: empty lines are skipped, lines that fail to decode are
skipped, each decoded chunk's content is accumulated and handed to
`onChunk`, and a `done` chunk breaks after being processed.  `decode` is
the JSON decoding oracle (`content`, `done`). -/
def processLines (decode : String → Option (String × Bool)) :
    List String → List String
  | [] => []
  | line :: rest =>
    if line = "" then processLines decode rest
    else
      match decode line with
      | none => processLines decode rest
      | some (content, done) =>
        if done then [content] else content :: processLines decode rest

/-- `OllamaService.ChatStreamWithModel`: input guard; model resolution
(explicit model if non-empty, else the global model); system-prompt
prepend; one streaming request (`conn` is `none` for a connection error,
otherwise status and body lines); the scanner loop; then exactly one
output check on the accumulated text, whose verdict is returned only when
it blocks. -/
def chatStreamModel (filters : List SecurityFilter)
    (systemPrompt globalModel modelParam : String) (messages : List GoMsg)
    (conn : Option (Nat × List String))
    (decode : String → Option (String × Bool)) : StreamRet :=
  match inputBlockVerdict filters messages with
  | some r =>
    { verdict := some r, error := none, requestModel := none, chunks := [],
      outputChecks := [], sentMessages := [] }
  | none =>
    let useModel := if modelParam = "" then globalModel else modelParam
    let messagesWithSystem : List GoMsg := ⟨"system", systemPrompt⟩ :: messages
    match conn with
    | none =>
      { verdict := none, error := some .connFail,
        requestModel := some useModel, chunks := [], outputChecks := [],
        sentMessages := messagesWithSystem }
    | some (status, lines) =>
      if status ≠ 200 then
        { verdict := none, error := some (.httpErr status ""),
          requestModel := some useModel, chunks := [], outputChecks := [],
          sentMessages := messagesWithSystem }
      else
        let chunks := processLines decode lines
        let full := chunks.foldl (· ++ ·) ""
        { verdict :=
            match checkOutput filters full with
            | some r => if r.blocked then some r else none
            | none => none,
          error := none, requestModel := some useModel, chunks := chunks,
          outputChecks := [full], sentMessages := messagesWithSystem }

/-! ## AI handler (SendMessage / SendMessageStream) -/

/-- A persisted `ai_messages` row (the fields the core writes). -/
structure Persisted where
  role : String
  content : String
  filtered : Bool
  filterReason : String
deriving DecidableEq

/-- A `security_logs` row written by `LogViolation`. -/
structure Violation where
  userID : Int
  filterID : Int
  content : String
  action : String
deriving DecidableEq

/-- An active knowledge-base row as used by `getKnowledgeContext`. -/
structure Knowledge where
  title : String
  category : String
  content : String
deriving DecidableEq

/-- One `## title [category]\ncontent\n\n` entry of the knowledge context. -/
def knowledgeEntry (k : Knowledge) : String :=
  "## " ++ k.title ++ " [" ++ k.category ++ "]\n" ++ k.content ++ "\n\n"

/-- Opening text of the knowledge context builder. -/
def knowledgeHeader : String :=
  "\n\n--- CONOCIMIENTO EMPRESARIAL ---\nUsa la siguiente informacion para responder preguntas sobre la empresa:\n\n"

/-- Closing text of the knowledge context builder. -/
def knowledgeFooter : String := "--- FIN CONOCIMIENTO ---\n"

/-- `getKnowledgeContext`: empty string when the fetch failed (`none`) or
returned no rows, otherwise header, one entry per row, footer. -/
def getKnowledgeContext (fetched : Option (List Knowledge)) : String :=
  match fetched with
  | none => ""
  | some [] => ""
  | some ks =>
    knowledgeHeader ++ (ks.map knowledgeEntry).foldl (· ++ ·) "" ++
      knowledgeFooter

/-- The history loop of `SendMessage`: copy each stored message, applying
URL enrichment only to the message at the last index and only when its
role is `user`.  `enrich` abstracts `enrichMessageWithURLContent` (which
returns its argument unchanged when the text has no URLs). -/
def enrichLastUser (enrich : String → String) : List Persisted → List GoMsg
  | [] => []
  | [m] => [⟨m.role, if m.role = "user" then enrich m.content else m.content⟩]
  | m :: rest => ⟨m.role, m.content⟩ :: enrichLastUser enrich rest

/-- Message assembly shared by `SendMessage` (with enrichment): optional
knowledge system message, then the fetched history. -/
def buildHandlerMessages (fetchedKnowledge : Option (List Knowledge))
    (history : List Persisted) (enrich : String → String) : List GoMsg :=
  let kctx := getKnowledgeContext fetchedKnowledge
  (if kctx = "" then [] else [⟨"system", kctx⟩]) ++ enrichLastUser enrich history

/-- Message assembly of `SendMessageStream`: same shape but without URL
enrichment (the streaming handler copies history contents verbatim). -/
def buildStreamMessages (fetchedKnowledge : Option (List Knowledge))
    (history : List Persisted) : List GoMsg :=
  let kctx := getKnowledgeContext fetchedKnowledge
  (if kctx = "" then [] else [⟨"system", kctx⟩]) ++
    history.map (fun m => ⟨m.role, m.content⟩)

/-- The stored user row appended by both handlers before fetching history
(the sanitized form text; `filtered=0`, empty reason). -/
def userRow (content : String) : Persisted :=
  ⟨"user", content, false, ""⟩

/-- `SendMessage`'s interaction with the core, for a message on an existing
conversation: append the user row, fetch the history (chronological, so
prior rows then the new user row), assemble the messages, and call `Chat`.
The conversation's model override (`convModel`) is available to the
handler but `SendMessage` never reads it: `Chat` always uses the global
model.  Returns the `Chat` result and the store as it is when `Chat` runs. -/
def sendMessageModel (filters : List SecurityFilter)
    (systemPrompt globalModel : String) (retries : Nat)
    (outcomes : Nat → UpstreamResult) (convModel : Option String)
    (prior : List Persisted) (fetchedKnowledge : Option (List Knowledge))
    (enrich : String → String) (userText : String) :
    ChatRet × List Persisted :=
  let _ := convModel
  let store := prior ++ [userRow userText]
  (chatModel filters systemPrompt globalModel retries outcomes
      (buildHandlerMessages fetchedKnowledge store enrich),
    store)

/-- Model resolution of `SendMessageStream` for an existing conversation:
the conversation's model when present and non-empty, otherwise the global
model (also on a fetch error, modelled by `none`). -/
def streamConvModel (convModel : Option String) (globalModel : String) :
    String :=
  match convModel with
  | some m => if m ≠ "" then m else globalModel
  | none => globalModel

/-- `SendMessageStream`'s call into the client: append the user row, fetch
history, assemble messages (no enrichment), resolve the conversation
model, and run `ChatStreamWithModel` with it. -/
def sendMessageStreamModel (filters : List SecurityFilter)
    (systemPrompt globalModel : String) (convModel : Option String)
    (prior : List Persisted) (fetchedKnowledge : Option (List Knowledge))
    (userText : String) (conn : Option (Nat × List String))
    (decode : String → Option (String × Bool)) : StreamRet × List Persisted :=
  let store := prior ++ [userRow userText]
  (chatStreamModel filters systemPrompt globalModel
      (streamConvModel convModel globalModel)
      (buildStreamMessages fetchedKnowledge store) conn decode,
    store)

/-- Fixed refusal persisted/streamed by the handlers on a blocked verdict. -/
def streamRefusal : String :=
  "Lo siento, no puedo procesar esa solicitud por politicas de seguridad."

/-- SSE frames of the streaming endpoint. -/
inductive Frame where
  | start (convID : Int) (model : String)
  | content (s : String)
  | heartbeat
  | filtered (reason : String)
  | done (convID : Int)
  | errorFrame (msg : String)
deriving DecidableEq

/-- What the completion stage of `SendMessageStream` produced. -/
structure FinishRet where
  frames : List Frame
  store : List Persisted
  violations : List Violation
  touched : Bool
deriving DecidableEq

/-- The completion stage of `SendMessageStream` (after `streamDone`): a
stream error emits an error frame and returns; a blocked verdict replaces
the response with the fixed refusal, persists it as a filtered assistant
row, records a security violation, and emits a `filtered` frame; otherwise
the accumulated response is persisted.  Either non-error path touches the
conversation and emits a `done` frame. -/
def finishStream (convID userID : Int) (userContent : String)
    (sr : StreamRet) (store : List Persisted) : FinishRet :=
  match sr.error with
  | some _ =>
    { frames := [Frame.errorFrame "Error comunicando con la IA"],
      store := store, violations := [], touched := false }
  | none =>
    let response := sr.chunks.foldl (· ++ ·) ""
    match sr.verdict with
    | some r =>
      if r.blocked then
        { frames := [Frame.filtered r.reason, Frame.done convID],
          store := store ++ [⟨"assistant", streamRefusal, true, r.filterName⟩],
          violations := [⟨userID, r.filterID, userContent, r.action⟩],
          touched := true }
      else
        { frames := [Frame.done convID],
          store := store ++ [⟨"assistant", response, false, ""⟩],
          violations := [], touched := true }
    | none =>
      { frames := [Frame.done convID],
        store := store ++ [⟨"assistant", response, false, ""⟩],
        violations := [], touched := true }

/-- The individual memory and output actions of the two goroutines of
`SendMessageStream` that touch `gotFirstChunk` or the response writer.
`gotFirstChunk` is a plain `bool` written by the producer goroutine's
`onChunk` callback and read by the pump loop with no synchronization, and
the content frames are written by the callback, not by the pump; so the
atomic units are these four actions, interleaved in any order that
respects each goroutine's program order:

* `setFlag` — the callback executes `gotFirstChunk = true`;
* `content s` — the callback then writes the chunk's content frame
  (within one callback invocation `setFlag` precedes `content`);
* `tickRead` — the pump, on a ticker tick, evaluates `!gotFirstChunk`;
* `hbWrite` — the pump then writes the heartbeat comment frame if the
  value it just read was false (within one tick `tickRead` precedes
  `hbWrite`, but producer actions may interleave between them). -/
inductive StreamAction where
  | setFlag
  | content (s : String)
  | tickRead
  | hbWrite
deriving DecidableEq

/-- Frames on the wire for an interleaving of the two goroutines' actions.
The state is the current value of `gotFirstChunk` and the value the pump's
pending tick read from it (`none` when no tick is between its read and its
write).  A `hbWrite` emits the heartbeat exactly when its `tickRead` saw
the flag as false — even if the producer has set the flag and written
content frames in between, which is the racy schedule the source admits. -/
def pumpFramesRaced :
    List StreamAction → Bool → Option Bool → List Frame
  | [], _, _ => []
  | .setFlag :: es, _, pending => pumpFramesRaced es true pending
  | .content s :: es, flag, pending =>
    Frame.content s :: pumpFramesRaced es flag pending
  | .tickRead :: es, flag, _ => pumpFramesRaced es flag (some flag)
  | .hbWrite :: es, flag, pending =>
    match pending with
    | some false => Frame.heartbeat :: pumpFramesRaced es flag none
    | _ => pumpFramesRaced es flag none

/-! ## Derived order on compiled filters, and concrete fixtures -/

/-- The load-order relation restated on compiled filters (severity string
descending byte-wise, then name ascending); `reloadFilters` preserves it
because the compile step keeps severity and name unchanged. -/
def filterLe (f g : SecurityFilter) : Prop :=
  ltL g.severity.data f.severity.data = true ∨
    (f.severity.data = g.severity.data ∧ ltL g.name.data f.name.data = false)

/-- A regex-compile oracle on which every pattern fails to compile (no
concrete scenario below involves a regex rule that must match). -/
def compileNone : String → Option (String → String) := fun _ => none

/-- Fixture: an active critical keyword block rule named `alpha`. -/
def rowCrit : FilterRow :=
  { id := 10, name := "alpha", description := none, filterType := "keyword",
    pattern := "x", action := "block", appliesTo := some "both",
    severity := some "critical", isActive := true }

/-- Fixture: an active medium keyword block rule named `beta` matching the
same texts as `rowCrit`. -/
def rowMed : FilterRow :=
  { id := 11, name := "beta", description := none, filterType := "keyword",
    pattern := "x", action := "block", appliesTo := some "both",
    severity := some "medium", isActive := true }

/-- Fixture: the warn rule of the spec scenario
`{kind: keyword, pattern: "salario,sueldo", action: warn, appliesTo: both}`. -/
def salRow : FilterRow :=
  { id := 1, name := "Filtro Salarios", description := none,
    filterType := "keyword", pattern := "salario,sueldo", action := "warn",
    appliesTo := some "both", severity := some "medium", isActive := true }

/-- Fixture: an input-direction keyword block rule. -/
def hackRow : FilterRow :=
  { id := 3, name := "Anti Hacking", description := none,
    filterType := "keyword", pattern := "hack", action := "block",
    appliesTo := some "input", severity := some "high", isActive := true }

/-- Fixture: a regex rule whose pattern fails to compile. -/
def badRegexRow : FilterRow :=
  { id := 5, name := "Regex Malo", description := none,
    filterType := "regex", pattern := "(", action := "block",
    appliesTo := some "both", severity := some "low", isActive := true }

/-- Fixture: an output-direction keyword block rule. -/
def secretRow : FilterRow :=
  { id := 4, name := "Secreto", description := none,
    filterType := "keyword", pattern := "secreto", action := "block",
    appliesTo := some "output", severity := some "high", isActive := true }

/-- Fixture: a stream-decoding oracle for two chunks, the second final. -/
def c4decode : String → Option (String × Bool) := fun l =>
  if l = "A" then some ("el ", false)
  else if l = "B" then some ("secreto", true)
  else none

/-- Fixture: a keyword rule whose pattern ends in a comma, so its split
produces a trailing empty term. -/
def trailRow : FilterRow :=
  { id := 2, name := "Coma Final", description := none,
    filterType := "keyword", pattern := "salario,", action := "block",
    appliesTo := some "both", severity := some "high", isActive := true }

/-- The compiled filter `ReloadFilters` builds from `trailRow`: the split
of `"salario,"` yields the terms `"salario"` and `""`. -/
def fTrail : SecurityFilter :=
  { id := 2, name := "Coma Final", description := "",
    filterType := "keyword", pattern := "salario,", action := "block",
    appliesTo := "both", severity := "high", compiled := none,
    keywords := ["salario", ""] }

/-! ## Order-theoretic facts about the binary-collation comparison -/

/-- `ltL` is irreflexive. -/
theorem ltL_irrefl : ∀ l, ltL l l = false := by
  intro l
  induction l with
  | nil => rfl
  | cons c t ih => simp [ltL, ih]

/-- `ltL` is transitive. -/
theorem ltL_trans : ∀ a b c, ltL a b = true → ltL b c = true →
    ltL a c = true := by
  intro a
  induction a with
  | nil =>
    intro b c h1 h2
    cases b <;> cases c <;> simp_all [ltL]
  | cons x as ih =>
    intro b c h1 h2
    cases b with
    | nil => simp [ltL] at h1
    | cons y bs =>
      cases c with
      | nil => simp [ltL] at h2
      | cons z cs =>
        simp only [ltL] at h1 h2 ⊢
        split_ifs at h1 h2 ⊢ <;>
          first
          | rfl
          | omega
          | exact ih bs cs h1 h2

/-- `ltL` is trichotomous. -/
theorem ltL_trichotomy : ∀ a b, ltL a b = true ∨ ltL b a = true ∨ a = b := by
  intro a
  induction a with
  | nil => intro b; cases b <;> simp [ltL]
  | cons x as ih =>
    intro b
    cases b with
    | nil => simp [ltL]
    | cons y bs =>
      rcases Nat.lt_trichotomy x.toNat y.toNat with h | h | h
      · left; simp [ltL, h]
      · have hxy : x = y := Char.ext (UInt32.ext h)
        subst hxy
        rcases ih bs with h1 | h1 | h1
        · left; simp [ltL, h1]
        · right; left; simp [ltL, h1]
        · right; right; rw [h1]
      · right; left; simp [ltL, h]

/-- `ltL` is asymmetric. -/
theorem ltL_asymm {a b : List Char} (h : ltL a b = true) : ltL b a = false := by
  by_contra hc
  have h2 : ltL b a = true := by
    cases hba : ltL b a with
    | false => exact absurd hba hc
    | true => rfl
  have h3 : ltL a a = true := ltL_trans a b a h h2
  rw [ltL_irrefl] at h3
  exact absurd h3 (by simp)

/-- `filterLe` is reflexive. -/
theorem filterLe_refl (f : SecurityFilter) : filterLe f f :=
  Or.inr ⟨rfl, ltL_irrefl _⟩

/-- The SQL ordering relation is total. -/
theorem rowLe_total : ∀ a b, rowLe a b ∨ rowLe b a := by
  intro a b
  rcases ltL_trichotomy (stringValue a.severity).data
    (stringValue b.severity).data with h | h | h
  · right; left; exact h
  · left; left; exact h
  · rcases ltL_trichotomy a.name.data b.name.data with hn | hn | hn
    · left; right; exact ⟨h, ltL_asymm hn⟩
    · right; right; exact ⟨h.symm, ltL_asymm hn⟩
    · left; right; exact ⟨h, by rw [hn]; exact ltL_irrefl _⟩

/-- The SQL ordering relation is transitive. -/
theorem rowLe_trans : ∀ a b c, rowLe a b → rowLe b c → rowLe a c := by
  intro a b c h1 h2
  rcases h1 with h1 | ⟨h1e, h1n⟩
  · rcases h2 with h2 | ⟨h2e, h2n⟩
    · exact Or.inl (ltL_trans _ _ _ h2 h1)
    · left; rw [← h2e]; exact h1
  · rcases h2 with h2 | ⟨h2e, h2n⟩
    · left; rw [h1e]; exact h2
    · right
      refine ⟨h1e.trans h2e, ?_⟩
      cases hca : ltL c.name.data a.name.data with
      | false => rfl
      | true =>
        rcases ltL_trichotomy c.name.data b.name.data with hcb | hbc | hcb
        · rw [hcb] at h2n; exact absurd h2n (by simp)
        · have hba := ltL_trans _ _ _ hbc hca
          rw [hba] at h1n; exact absurd h1n (by simp)
        · rw [hcb] at hca; rw [h1n] at hca; exact absurd hca (by simp)

/-- The rows returned by `GetActiveSecurityFilters` are sorted by the SQL
ordering (severity string descending, name ascending). -/
theorem sorted_getActive (rows : List FilterRow) :
    List.Sorted rowLe (getActiveSecurityFilters rows) := by
  haveI : IsTotal FilterRow rowLe := ⟨rowLe_total⟩
  haveI : IsTrans FilterRow rowLe := ⟨rowLe_trans⟩
  exact List.sorted_insertionSort rowLe _

/-! ## Facts about the load step -/

/-- The compile step keeps severity and name unchanged. -/
theorem loadFilter_fields {compile : String → Option (String → String)}
    {r : FilterRow} {f : SecurityFilter} (h : loadFilter compile r = some f) :
    f.severity = stringValue r.severity ∧ f.name = r.name := by
  unfold loadFilter at h
  split at h
  · split at h
    · exact absurd h (by simp)
    · cases h; exact ⟨rfl, rfl⟩
  · cases h; exact ⟨rfl, rfl⟩
  · cases h; exact ⟨rfl, rfl⟩

/-- The compile step keeps all the scalar fields of the row. -/
theorem loadFilter_fields2 {compile : String → Option (String → String)}
    {r : FilterRow} {f : SecurityFilter} (h : loadFilter compile r = some f) :
    f.id = r.id ∧ f.name = r.name ∧ f.action = r.action ∧
      f.severity = stringValue r.severity ∧
      f.appliesTo = stringValue r.appliesTo ∧ f.filterType = r.filterType := by
  unfold loadFilter at h
  split at h
  next hty =>
    split at h
    next => exact absurd h (by simp)
    next re hc =>
      cases h
      exact ⟨rfl, rfl, rfl, rfl, rfl, rfl⟩
  next hty =>
    cases h
    exact ⟨rfl, rfl, rfl, rfl, rfl, rfl⟩
  next x h1 h2 =>
    cases h
    exact ⟨rfl, rfl, rfl, rfl, rfl, rfl⟩

/-- A row is dropped by the load step exactly when it is a regex rule
whose pattern fails to compile. -/
theorem loadFilter_none_iff {compile : String → Option (String → String)}
    {r : FilterRow} :
    loadFilter compile r = none ↔
      r.filterType = "regex" ∧ compile r.pattern = none := by
  unfold loadFilter
  split
  next hty =>
    split
    next hc => simp [hty, hc]
    next re hc => simp [hty, hc]
  next hty => simp [hty]
  next x h1 h2 =>
    constructor
    · intro hc
      simp at hc
    · rintro ⟨ha, _⟩
      exact (h1 ha).elim

/-- Sortedness of the fetched rows survives the compile step. -/
theorem pairwise_filterLe {compile : String → Option (String → String)} :
    ∀ {l : List FilterRow}, List.Pairwise rowLe l →
      List.Pairwise filterLe (l.filterMap (loadFilter compile)) := by
  intro l h
  induction l with
  | nil => simp
  | cons x t ih =>
    rcases List.pairwise_cons.mp h with ⟨hx, ht⟩
    rw [List.filterMap_cons]
    cases hload : loadFilter compile x with
    | none => exact ih ht
    | some fx =>
      refine List.pairwise_cons.mpr ⟨?_, ih ht⟩
      intro fy hfy
      rcases List.mem_filterMap.mp hfy with ⟨y, hy, hloady⟩
      rcases loadFilter_fields hload with ⟨hsx, hnx⟩
      rcases loadFilter_fields hloady with ⟨hsy, hny⟩
      rcases hx y hy with hr | ⟨hre, hrn⟩
      · left; rw [hsx, hsy]; exact hr
      · right; rw [hsx, hsy, hnx, hny]; exact ⟨hre, hrn⟩

/-- A successful `findSome?` splits its list at the first hit. -/
theorem findSome?_split {α β : Type} {p : α → Option β} :
    ∀ {l : List α} {b : β}, l.findSome? p = some b →
      ∃ l1 a l2, l = l1 ++ a :: l2 ∧ p a = some b ∧ ∀ x ∈ l1, p x = none := by
  intro l
  induction l with
  | nil => intro b h; simp [List.findSome?] at h
  | cons x t ih =>
    intro b h
    rw [List.findSome?_cons] at h
    cases hx : p x with
    | some c =>
      rw [hx] at h
      refine ⟨[], x, t, by simp, ?_, by simp⟩
      simpa using h.symm ▸ hx
    | none =>
      rw [hx] at h
      rcases ih h with ⟨l1, a, l2, hl, ha, hnone⟩
      refine ⟨x :: l1, a, l2, by rw [hl]; rfl, ha, ?_⟩
      intro z hz
      rcases List.mem_cons.mp hz with hz | hz
      · rw [hz]; exact hx
      · exact hnone z hz

/-- Go `strings.Contains s ""` is always true. -/
theorem containsL_right_nil : ∀ l : List Char, containsL l [] = true := by
  intro l
  cases l <;> simp [containsL, List.isPrefixOf]

/-! ## Shape of the client calls once a request is sent -/

/-- Whenever `Chat` actually sent a request, the request carried the
globally selected model and the system-prompt-prepended message list. -/
theorem chatModel_shape (filters : List SecurityFilter)
    (sysPrompt globalModel : String) (retries : Nat)
    (outcomes : Nat → UpstreamResult) (messages : List GoMsg)
    (h : (chatModel filters sysPrompt globalModel retries outcomes
        messages).requestModel.isSome = true) :
    (chatModel filters sysPrompt globalModel retries outcomes
        messages).requestModel = some globalModel ∧
    (chatModel filters sysPrompt globalModel retries outcomes
        messages).sentMessages = ⟨"system", sysPrompt⟩ :: messages := by
  unfold chatModel at h ⊢
  split at h
  · simp at h
  · refine ⟨?_, ?_⟩ <;> (repeat' split) <;> rfl

/-- Whenever `ChatStreamWithModel` actually sent a request, the request
carried the resolved model (explicit model if non-empty, global otherwise)
and the system-prompt-prepended message list. -/
theorem chatStreamModel_shape (filters : List SecurityFilter)
    (sysPrompt globalModel modelParam : String) (messages : List GoMsg)
    (conn : Option (Nat × List String))
    (decode : String → Option (String × Bool))
    (h : (chatStreamModel filters sysPrompt globalModel modelParam messages
        conn decode).requestModel.isSome = true) :
    (chatStreamModel filters sysPrompt globalModel modelParam messages
        conn decode).requestModel =
      some (if modelParam = "" then globalModel else modelParam) ∧
    (chatStreamModel filters sysPrompt globalModel modelParam messages
        conn decode).sentMessages = ⟨"system", sysPrompt⟩ :: messages := by
  unfold chatStreamModel at h ⊢
  split at h
  · simp at h
  · refine ⟨?_, ?_⟩ <;> (repeat' split) <;> rfl

/-! ## Handler assembly helpers -/

/-- The `SendMessage` history loop enriches exactly the last element of a
history ending in a fresh row, and copies every earlier row verbatim. -/
theorem enrichLastUser_append (enrich : String → String) :
    ∀ (prior : List Persisted) (m : Persisted),
      enrichLastUser enrich (prior ++ [m]) =
        prior.map (fun x => (⟨x.role, x.content⟩ : GoMsg)) ++
          [⟨m.role, if m.role = "user" then enrich m.content else m.content⟩] := by
  intro prior m
  induction prior with
  | nil => simp [enrichLastUser]
  | cons p rest ih =>
    cases rest with
    | nil => simp [enrichLastUser]
    | cons q t =>
      simp only [List.cons_append, List.map_cons]
      rw [show enrichLastUser enrich (p :: (q :: (t ++ [m]))) =
        ⟨p.role, p.content⟩ :: enrichLastUser enrich (q :: (t ++ [m])) from rfl]
      simp only [List.cons_append] at ih
      rw [ih]
      simp

/-- With at least one knowledge row the built context is never empty (it
starts with the fixed header). -/
theorem getKnowledgeContext_cons_ne (k : Knowledge) (t : List Knowledge) :
    getKnowledgeContext (some (k :: t)) ≠ "" := by
  intro h
  simp only [getKnowledgeContext] at h
  have hd := congrArg String.data h
  rw [show ("" : String).data = [] from rfl] at hd
  simp only [String.data_append] at hd
  rcases List.append_eq_nil.mp hd with ⟨h1, _⟩
  rcases List.append_eq_nil.mp h1 with ⟨h2, _⟩
  have hne : knowledgeHeader.data ≠ [] := by decide
  exact hne h2


/-! ## The claims -/

/-- C1 (amended): for every rule set produced by the full load path
(active rows in the SQL order `severity DESC, name ASC` over the TEXT
severity column — i.e. byte-wise descending on the severity string — then
compiled), a verdict returned by `checkContent` comes from a matching
filter that precedes, in exactly that order, every other filter that
applies to the direction and matches the text: the first matching rule
wins, where "first" is severity-string descending (so e.g. `"medium"`
sorts before `"critical"`), then name ascending. -/
theorem c1_theorem (compile : String → Option (String → String))
    (rows : List FilterRow) (content dir : String) (res : FilterResult)
    (h : checkContent (activePipeline compile rows) content dir = some res) :
    ∃ f ∈ activePipeline compile rows,
      evalFilter content (goToLower content) dir f = some res ∧
      ∀ g ∈ activePipeline compile rows,
        (evalFilter content (goToLower content) dir g).isSome = true →
        filterLe f g := by
  unfold checkContent at h
  rcases findSome?_split h with ⟨l1, f, l2, hl, hf, hnone⟩
  have hpair : List.Pairwise filterLe (activePipeline compile rows) := by
    unfold activePipeline reloadFilters
    exact pairwise_filterLe (sorted_getActive rows)
  refine ⟨f, by rw [hl]; exact List.mem_append_right _ (List.mem_cons_self _ _),
    hf, ?_⟩
  intro g hg hgsome
  rw [hl] at hg hpair
  rcases List.mem_append.mp hg with hg1 | hg2
  · rw [hnone g hg1] at hgsome
    simp at hgsome
  · rcases List.mem_cons.mp hg2 with hg3 | hg3
    · rw [hg3]; exact filterLe_refl f
    · have hp2 := (List.pairwise_append.mp hpair).2.1
      exact (List.pairwise_cons.mp hp2).1 g hg3

/-- C1 witness: the general theorem applied to the two-rule fixture. -/
theorem c1_witness :
    ∃ f ∈ activePipeline compileNone [rowCrit, rowMed],
      evalFilter "x" (goToLower "x") "input" f =
        some { blocked := true, filterID := 11, filterName := "beta",
               action := "block", severity := "medium",
               reason := "Contenido bloqueado por politica de seguridad: beta",
               matchedText := "x" } ∧
      ∀ g ∈ activePipeline compileNone [rowCrit, rowMed],
        (evalFilter "x" (goToLower "x") "input" g).isSome = true →
        filterLe f g :=
  c1_theorem compileNone [rowCrit, rowMed] "x" "input"
    { blocked := true, filterID := 11, filterName := "beta",
      action := "block", severity := "medium",
      reason := "Contenido bloqueado por politica de seguridad: beta",
      matchedText := "x" } (by decide)

/-- C1 counterexample: with two active block rules that both match
`"x"`, one critical (`alpha`) and one medium (`beta`), the verdict
returned by `Check` identifies the medium rule, not the higher-severity
critical one, because `ORDER BY severity DESC` sorts the severity TEXT
column byte-wise and `"medium" > "critical"` in that order. -/
theorem c1_counterexample :
    (activePipeline compileNone [rowCrit, rowMed]).length = 2 ∧
    (activePipeline compileNone [rowCrit, rowMed]).all
      (fun f => (evalFilter "x" (goToLower "x") "input" f).isSome) = true ∧
    rowCrit.severity = some "critical" ∧ rowMed.severity = some "medium" ∧
    (checkContent (activePipeline compileNone [rowCrit, rowMed]) "x"
        "input").map (fun r => (r.filterName, r.severity)) =
      some ("beta", "medium") := by
  decide

/-- C2 (amended): whenever the LAST message of the list is a user message
whose content matches an active block rule in the input direction, `Chat`
returns empty text, that blocked verdict and no error without building or
sending any request, and `ChatStreamWithModel` likewise returns the verdict
with no request, no chunks and no output check. (As stated over "the last
user message" the claim fails: a list whose final message is from the
assistant is never checked — see the counterexample.) -/
theorem c2_theorem (filters : List SecurityFilter)
    (sysPrompt globalModel modelParam : String) (retries : Nat)
    (outcomes : Nat → UpstreamResult) (messages : List GoMsg)
    (conn : Option (Nat × List String))
    (decode : String → Option (String × Bool)) (m : GoMsg) (r : FilterResult)
    (hlast : messages.getLast? = some m) (hrole : m.role = "user")
    (hchk : checkInput filters m.content = some r) (hblk : r.blocked = true) :
    chatModel filters sysPrompt globalModel retries outcomes messages =
      { text := "", verdict := some r, error := none, attempts := 0,
        waits := [], requestModel := none, sentMessages := [] } ∧
    chatStreamModel filters sysPrompt globalModel modelParam messages conn
        decode =
      { verdict := some r, error := none, requestModel := none, chunks := [],
        outputChecks := [], sentMessages := [] } := by
  have hib : inputBlockVerdict filters messages = some r := by
    simp [inputBlockVerdict, hlast, hrole, hchk, hblk]
  exact ⟨by simp [chatModel, hib], by simp [chatStreamModel, hib]⟩

/-- C2 witness: a blocked user turn short-circuits both calls. -/
theorem c2_witness :
    chatModel (reloadFilters compileNone [hackRow]) "sys" "m1" 3
        (fun _ => .http 200 "hola") [⟨"user", "como hago un hack"⟩] =
      { text := "", verdict := some
          { blocked := true, filterID := 3, filterName := "Anti Hacking",
            action := "block", severity := "high",
            reason := "Contenido bloqueado por politica de seguridad: Anti Hacking",
            matchedText := "hack" },
        error := none, attempts := 0, waits := [], requestModel := none,
        sentMessages := [] } ∧
    chatStreamModel (reloadFilters compileNone [hackRow]) "sys" "m1" ""
        [⟨"user", "como hago un hack"⟩] (some (200, ["l"])) (fun _ => none) =
      { verdict := some
          { blocked := true, filterID := 3, filterName := "Anti Hacking",
            action := "block", severity := "high",
            reason := "Contenido bloqueado por politica de seguridad: Anti Hacking",
            matchedText := "hack" },
        error := none, requestModel := none, chunks := [],
        outputChecks := [], sentMessages := [] } :=
  c2_theorem (reloadFilters compileNone [hackRow]) "sys" "m1" "" 3
    (fun _ => .http 200 "hola") [⟨"user", "como hago un hack"⟩]
    (some (200, ["l"])) (fun _ => none) ⟨"user", "como hago un hack"⟩
    { blocked := true, filterID := 3, filterName := "Anti Hacking",
      action := "block", severity := "high",
      reason := "Contenido bloqueado por politica de seguridad: Anti Hacking",
      matchedText := "hack" }
    (by decide) (by decide) (by decide) (by decide)

/-- C2 counterexample: in the list `[user "hack", assistant "hola"]` the
last USER message matches an active input-direction block rule, yet both
calls send a request to the server (the code only inspects the final list
element, which here has role `assistant`). -/
theorem c2_counterexample :
    (checkInput (reloadFilters compileNone [hackRow]) "hack").map
        (fun r => r.blocked) = some true ∧
    [(⟨"user", "hack"⟩ : GoMsg), ⟨"assistant", "hola"⟩].filter
        (fun m => m.role == "user") = [⟨"user", "hack"⟩] ∧
    (chatModel (reloadFilters compileNone [hackRow]) "sys" "m1" 3
        (fun _ => .http 200 "ok")
        [⟨"user", "hack"⟩, ⟨"assistant", "hola"⟩]).attempts = 1 ∧
    (chatModel (reloadFilters compileNone [hackRow]) "sys" "m1" 3
        (fun _ => .http 200 "ok")
        [⟨"user", "hack"⟩, ⟨"assistant", "hola"⟩]).requestModel = some "m1" ∧
    (chatStreamModel (reloadFilters compileNone [hackRow]) "sys" "m1" ""
        [⟨"user", "hack"⟩, ⟨"assistant", "hola"⟩] (some (200, []))
        (fun _ => none)).requestModel = some "m1" := by
  decide

/-- C3: with the default retry count 3, an upstream answering 500, 500,
200 yields success after exactly the backoff waits [1s, 2s]; two
connection errors then 200 likewise; and a 4xx answer on the first attempt
fails after exactly one request with no backoff wait. -/
theorem c3_theorem :
    (∀ sysPrompt globalModel : String,
      chatModel [] sysPrompt globalModel defaultOllamaRetries
        (fun n => if n = 0 then .http 500 "err" else
          if n = 1 then .http 500 "err" else .http 200 "hola")
        [⟨"user", "hola"⟩] =
      { text := "hola", verdict := none, error := none, attempts := 3,
        waits := [1, 2], requestModel := some globalModel,
        sentMessages := [⟨"system", sysPrompt⟩, ⟨"user", "hola"⟩] }) ∧
    (∀ (sysPrompt globalModel c : String),
      chatModel [] sysPrompt globalModel defaultOllamaRetries
        (fun n => if n ≤ 1 then .connError else .http 200 c)
        [⟨"user", "hola"⟩] =
      { text := c, verdict := none, error := none, attempts := 3,
        waits := [1, 2], requestModel := some globalModel,
        sentMessages := [⟨"system", sysPrompt⟩, ⟨"user", "hola"⟩] }) ∧
    (∀ (sysPrompt globalModel : String) (outcomes : Nat → UpstreamResult)
        (s : Nat) (body : String),
      outcomes 0 = .http s body → 400 ≤ s → s < 500 →
      (chatModel [] sysPrompt globalModel defaultOllamaRetries outcomes
          [⟨"user", "hola"⟩]).error = some (.httpErr s body) ∧
      (chatModel [] sysPrompt globalModel defaultOllamaRetries outcomes
          [⟨"user", "hola"⟩]).attempts = 1 ∧
      (chatModel [] sysPrompt globalModel defaultOllamaRetries outcomes
          [⟨"user", "hola"⟩]).waits = []) := by
  refine ⟨fun sysPrompt globalModel => rfl, fun sysPrompt globalModel c => rfl,
    ?_⟩
  intro sysPrompt globalModel outcomes s body h0 h4 h5
  have h200 : (s == 200) = false := by
    simp only [beq_eq_false_iff_ne]
    omega
  have h500 : ¬ 500 ≤ s := by omega
  refine ⟨?_, ?_, ?_⟩ <;>
    simp [chatModel, inputBlockVerdict, checkInput, checkContent,
      defaultOllamaRetries, chatAttemptLoop, h0, h200, h500]

/-- C3 witness: a 400 answer fails on the first attempt with no retry. -/
theorem c3_witness :
    (chatModel [] "sys" "m1" defaultOllamaRetries
        (fun _ => .http 400 "peticion invalida") [⟨"user", "hola"⟩]).error =
      some (.httpErr 400 "peticion invalida") ∧
    (chatModel [] "sys" "m1" defaultOllamaRetries
        (fun _ => .http 400 "peticion invalida")
        [⟨"user", "hola"⟩]).attempts = 1 ∧
    (chatModel [] "sys" "m1" defaultOllamaRetries
        (fun _ => .http 400 "peticion invalida") [⟨"user", "hola"⟩]).waits =
      [] :=
  c3_theorem.2.2 "sys" "m1" (fun _ => .http 400 "peticion invalida") 400
    "peticion invalida" rfl (by decide) (by decide)

/-- C4: for a streaming request that reaches the scanner (input not
blocked, connection established, status 200), the output-direction check
runs exactly once, on the concatenation of all received chunks, never on
individual chunks; in the completion stage, a blocked verdict persists the
fixed refusal as the filtered assistant row, emits a `filtered` frame with
the verdict's reason and records exactly one security violation, a
non-blocked run emits a `done` frame, and either way the conversation is
touched. -/
theorem c4_theorem (filters : List SecurityFilter)
    (sysPrompt globalModel modelParam : String) (messages : List GoMsg)
    (lines : List String) (decode : String → Option (String × Bool))
    (convID userID : Int) (userContent : String) (store : List Persisted)
    (sr : StreamRet)
    (hok : inputBlockVerdict filters messages = none)
    (hsr : sr = chatStreamModel filters sysPrompt globalModel modelParam
        messages (some (200, lines)) decode) :
    sr.outputChecks = [sr.chunks.foldl (· ++ ·) ""] ∧
    sr.error = none ∧
    (∀ r, sr.verdict = some r →
      r.blocked = true ∧
      (finishStream convID userID userContent sr store).store =
        store ++ [⟨"assistant", streamRefusal, true, r.filterName⟩] ∧
      Frame.filtered r.reason ∈
        (finishStream convID userID userContent sr store).frames ∧
      (finishStream convID userID userContent sr store).violations =
        [⟨userID, r.filterID, userContent, r.action⟩] ∧
      (finishStream convID userID userContent sr store).touched = true) ∧
    (sr.verdict = none →
      Frame.done convID ∈
        (finishStream convID userID userContent sr store).frames ∧
      (finishStream convID userID userContent sr store).touched = true) := by
  have hsr2 : sr =
      { verdict :=
          match checkOutput filters
              ((processLines decode lines).foldl (· ++ ·) "") with
          | some q => if q.blocked then some q else none
          | none => none,
        error := none,
        requestModel :=
          some (if modelParam = "" then globalModel else modelParam),
        chunks := processLines decode lines,
        outputChecks := [(processLines decode lines).foldl (· ++ ·) ""],
        sentMessages := ⟨"system", sysPrompt⟩ :: messages } := by
    rw [hsr]
    simp [chatStreamModel, hok]
  refine ⟨by rw [hsr2], by rw [hsr2], ?_, ?_⟩
  · intro r hr
    rw [hsr2] at hr
    have hv : (match checkOutput filters
          ((processLines decode lines).foldl (· ++ ·) "") with
        | some q => if q.blocked then some q else none
        | none => none) = some r := hr
    have hblk : r.blocked = true := by
      rcases hco : checkOutput filters
          ((processLines decode lines).foldl (· ++ ·) "") with _ | q
      · rw [hco] at hv
        exact absurd hv (by simp)
      · rw [hco] at hv
        by_cases hq : q.blocked = true
        · simp [hq] at hv
          subst hv
          exact hq
        · simp [hq] at hv
    refine ⟨hblk, ?_, ?_, ?_, ?_⟩ <;> simp [finishStream, hsr2, hv, hblk]
  · intro hr
    rw [hsr2] at hr
    have hv : (match checkOutput filters
          ((processLines decode lines).foldl (· ++ ·) "") with
        | some q => if q.blocked then some q else none
        | none => none) = none := hr
    constructor <;> simp [finishStream, hsr2, hv]

/-- C4 witness: a two-chunk stream whose concatenation (and only the
concatenation — neither chunk alone contains the keyword contiguously)
triggers the output block rule. -/
theorem c4_witness :
    (chatStreamModel (reloadFilters compileNone [secretRow]) "sys" "g" ""
        [⟨"user", "hola"⟩] (some (200, ["A", "", "junk", "B"]))
        c4decode).outputChecks =
      [(chatStreamModel (reloadFilters compileNone [secretRow]) "sys" "g" ""
        [⟨"user", "hola"⟩] (some (200, ["A", "", "junk", "B"]))
        c4decode).chunks.foldl (· ++ ·) ""] ∧
    (chatStreamModel (reloadFilters compileNone [secretRow]) "sys" "g" ""
        [⟨"user", "hola"⟩] (some (200, ["A", "", "junk", "B"]))
        c4decode).error = none ∧
    (∀ r, (chatStreamModel (reloadFilters compileNone [secretRow]) "sys" "g"
        "" [⟨"user", "hola"⟩] (some (200, ["A", "", "junk", "B"]))
        c4decode).verdict = some r →
      r.blocked = true ∧
      (finishStream 7 42 "hola"
          (chatStreamModel (reloadFilters compileNone [secretRow]) "sys" "g"
            "" [⟨"user", "hola"⟩] (some (200, ["A", "", "junk", "B"]))
            c4decode)
          []).store =
        [] ++ [⟨"assistant", streamRefusal, true, r.filterName⟩] ∧
      Frame.filtered r.reason ∈
        (finishStream 7 42 "hola"
          (chatStreamModel (reloadFilters compileNone [secretRow]) "sys" "g"
            "" [⟨"user", "hola"⟩] (some (200, ["A", "", "junk", "B"]))
            c4decode)
          []).frames ∧
      (finishStream 7 42 "hola"
          (chatStreamModel (reloadFilters compileNone [secretRow]) "sys" "g"
            "" [⟨"user", "hola"⟩] (some (200, ["A", "", "junk", "B"]))
            c4decode)
          []).violations = [⟨42, r.filterID, "hola", r.action⟩] ∧
      (finishStream 7 42 "hola"
          (chatStreamModel (reloadFilters compileNone [secretRow]) "sys" "g"
            "" [⟨"user", "hola"⟩] (some (200, ["A", "", "junk", "B"]))
            c4decode)
          []).touched = true) ∧
    ((chatStreamModel (reloadFilters compileNone [secretRow]) "sys" "g" ""
        [⟨"user", "hola"⟩] (some (200, ["A", "", "junk", "B"]))
        c4decode).verdict = none →
      Frame.done 7 ∈
        (finishStream 7 42 "hola"
          (chatStreamModel (reloadFilters compileNone [secretRow]) "sys" "g"
            "" [⟨"user", "hola"⟩] (some (200, ["A", "", "junk", "B"]))
            c4decode)
          []).frames ∧
      (finishStream 7 42 "hola"
          (chatStreamModel (reloadFilters compileNone [secretRow]) "sys" "g"
            "" [⟨"user", "hola"⟩] (some (200, ["A", "", "junk", "B"]))
            c4decode)
          []).touched = true) :=
  c4_theorem (reloadFilters compileNone [secretRow]) "sys" "g" ""
    [⟨"user", "hola"⟩] ["A", "", "junk", "B"] c4decode 7 42 "hola" []
    (chatStreamModel (reloadFilters compileNone [secretRow]) "sys" "g" ""
      [⟨"user", "hola"⟩] (some (200, ["A", "", "junk", "B"])) c4decode)
    (by decide) rfl

/-- C5 (code bug): the guard `if !gotFirstChunk` is meant to stop all
heartbeats once the first chunk has arrived (the code comments it as
"send heartbeat only if we have not received chunks yet", and the spec
states it as a guarantee), but `gotFirstChunk` is an unsynchronized bool
shared between the producer callback and the pump loop.  Three schedules
of the same goroutine programs — producer `[setFlag, content "hola"]`,
pump `[tickRead, hbWrite]` — evaluated on the source's interleaving
semantics:

* the racing schedule, where the callback runs between the pump's read of
  the flag and its heartbeat write, emits the heartbeat AFTER the first
  content frame, violating the claim;
* the schedule where the tick fires after the chunk emits no heartbeat;
* the schedule where the tick completes before the chunk emits the
  heartbeat before the content frame.

So heartbeats racing with the first chunk can follow it on the wire;
only ticks whose flag read happens after the first chunk's flag write are
reliably suppressed. -/
theorem c5_theorem :
    pumpFramesRaced [.tickRead, .setFlag, .content "hola", .hbWrite] false
        none = [Frame.content "hola", Frame.heartbeat] ∧
    pumpFramesRaced [.setFlag, .content "hola", .tickRead, .hbWrite] false
        none = [Frame.content "hola"] ∧
    pumpFramesRaced [.tickRead, .hbWrite, .setFlag, .content "hola"] false
        none = [Frame.heartbeat, Frame.content "hola"] := by
  decide

/-- C6 (amended): a streaming call of a conversation with a non-empty
model override sends the request with the override model, and the global
model is used when no override is present; but the synchronous
`SendMessage`/`Chat` path always sends the globally selected model — it
never consults the conversation's override. -/
theorem c6_theorem :
    (∀ (filters : List SecurityFilter) (sysPrompt globalModel m : String)
        (prior : List Persisted) (ks : Option (List Knowledge))
        (userText : String) (conn : Option (Nat × List String))
        (decode : String → Option (String × Bool)) (mdl : String),
      m ≠ "" →
      (sendMessageStreamModel filters sysPrompt globalModel (some m) prior ks
          userText conn decode).1.requestModel = some mdl →
      mdl = m) ∧
    (∀ (filters : List SecurityFilter) (sysPrompt globalModel : String)
        (retries : Nat) (outcomes : Nat → UpstreamResult)
        (convModel : Option String) (prior : List Persisted)
        (ks : Option (List Knowledge)) (enrich : String → String)
        (userText mdl : String),
      (sendMessageModel filters sysPrompt globalModel retries outcomes
          convModel prior ks enrich userText).1.requestModel = some mdl →
      mdl = globalModel) ∧
    (∀ (filters : List SecurityFilter) (sysPrompt globalModel : String)
        (prior : List Persisted) (ks : Option (List Knowledge))
        (userText : String) (conn : Option (Nat × List String))
        (decode : String → Option (String × Bool)) (mdl : String),
      (sendMessageStreamModel filters sysPrompt globalModel none prior ks
          userText conn decode).1.requestModel = some mdl →
      mdl = globalModel) := by
  refine ⟨?_, ?_, ?_⟩
  · intro filters sysPrompt g m prior ks userText conn decode mdl hm h
    have hcm : streamConvModel (some m) g = m := by simp [streamConvModel, hm]
    simp only [sendMessageStreamModel, hcm] at h
    have hs := (chatStreamModel_shape filters sysPrompt g m
      (buildStreamMessages ks (prior ++ [userRow userText])) conn decode
      (by rw [h]; rfl)).1
    rw [h] at hs
    simp [hm] at hs
    exact hs
  · intro filters sysPrompt g retries outcomes convModel prior ks enrich
      userText mdl h
    simp only [sendMessageModel] at h
    have hs := (chatModel_shape filters sysPrompt g retries outcomes
      (buildHandlerMessages ks (prior ++ [userRow userText]) enrich)
      (by rw [h]; rfl)).1
    rw [h] at hs
    simp at hs
    exact hs
  · intro filters sysPrompt g prior ks userText conn decode mdl h
    have hcm : streamConvModel none g = g := rfl
    simp only [sendMessageStreamModel, hcm] at h
    have hs := (chatStreamModel_shape filters sysPrompt g g
      (buildStreamMessages ks (prior ++ [userRow userText])) conn decode
      (by rw [h]; rfl)).1
    rw [h] at hs
    simp at hs
    exact hs

/-- C6 witness: the three parts of the amended claim instantiated. -/
theorem c6_witness :
    ("llama3" : String) = "llama3" ∧ ("g1" : String) = "g1" ∧
      ("g2" : String) = "g2" :=
  ⟨c6_theorem.1 [] "s" "g1" "llama3" [] none "hola" (some (200, []))
      (fun _ => none) "llama3" (by decide) (by decide),
    c6_theorem.2.1 [] "s" "g1" 3 (fun _ => .http 200 "ok") (some "llama3") []
      none (fun s => s) "hola" "g1" (by decide),
    c6_theorem.2.2 [] "s" "g2" [] none "hola" (some (200, []))
      (fun _ => none) "g2" (by decide)⟩

/-- C6 counterexample: for a conversation whose override is
`"override-model"` while the global model is `"global-model"`, the
synchronous chat path sends `"global-model"`; the streaming path on the
same conversation sends `"override-model"`. -/
theorem c6_counterexample :
    (sendMessageModel [] "s" "global-model" 3 (fun _ => .http 200 "ok")
        (some "override-model") [] none (fun s => s) "hola").1.requestModel =
      some "global-model" ∧
    ("global-model" : String) ≠ "override-model" ∧
    (sendMessageStreamModel [] "s" "global-model" (some "override-model") []
        none "hola" (some (200, [])) (fun _ => none)).1.requestModel =
      some "override-model" := by
  decide

/-- C7: whenever the synchronous path sends a request, the message list is
exactly one fixed system prompt, then one knowledge system message
(present iff at least one snippet exists), then the prior history in
order, then the current user turn, URL-enriched, last; and the store as of
the call holds the prior history plus the raw (un-enriched) user row. -/
theorem c7_theorem (filters : List SecurityFilter)
    (sysPrompt globalModel : String) (retries : Nat)
    (outcomes : Nat → UpstreamResult) (convModel : Option String)
    (prior : List Persisted) (ks : List Knowledge) (enrich : String → String)
    (userText : String) (ret : ChatRet) (store : List Persisted)
    (h : sendMessageModel filters sysPrompt globalModel retries outcomes
        convModel prior (some ks) enrich userText = (ret, store)) :
    (ret.requestModel.isSome = true →
      ret.sentMessages = ⟨"system", sysPrompt⟩ ::
        ((if ks = [] then []
          else [⟨"system", getKnowledgeContext (some ks)⟩]) ++
          (prior.map (fun x => (⟨x.role, x.content⟩ : GoMsg)) ++
            [⟨"user", enrich userText⟩]))) ∧
    (getKnowledgeContext (some ks) = "" ↔ ks = []) ∧
    store = prior ++ [userRow userText] := by
  have hret : ret = chatModel filters sysPrompt globalModel retries outcomes
      (buildHandlerMessages (some ks) (prior ++ [userRow userText]) enrich) := by
    have h2 := congrArg Prod.fst h
    simpa [sendMessageModel] using h2.symm
  have hstore : store = prior ++ [userRow userText] := by
    have h2 := congrArg Prod.snd h
    simpa [sendMessageModel] using h2.symm
  refine ⟨?_, ?_, hstore⟩
  · intro hsome
    rw [hret] at hsome ⊢
    have hs := (chatModel_shape _ _ _ _ _ _ hsome).2
    rw [hs]
    congr 1
    cases ks with
    | nil =>
      simp only [buildHandlerMessages]
      rw [enrichLastUser_append]
      simp [userRow, getKnowledgeContext]
    | cons k t =>
      simp only [buildHandlerMessages]
      rw [enrichLastUser_append]
      have h1 : ¬ (getKnowledgeContext (some (k :: t)) = "") :=
        getKnowledgeContext_cons_ne k t
      simp [userRow, h1]
  · cases ks with
    | nil => simp [getKnowledgeContext]
    | cons k t =>
      constructor
      · intro hc
        exact absurd hc (getKnowledgeContext_cons_ne k t)
      · intro hc
        exact absurd hc (by simp)

/-- C7 witness: the assembly theorem at one snippet, one prior assistant
row and a concrete enrichment function. -/
theorem c7_witness :
    ((sendMessageModel [] "sys" "g" 3 (fun _ => .http 200 "ok") none
        [⟨"assistant", "previo", false, ""⟩] (some [⟨"T", "C", "X"⟩])
        (fun s => s ++ "!") "hola").1.requestModel.isSome = true →
      (sendMessageModel [] "sys" "g" 3 (fun _ => .http 200 "ok") none
        [⟨"assistant", "previo", false, ""⟩] (some [⟨"T", "C", "X"⟩])
        (fun s => s ++ "!") "hola").1.sentMessages =
        ⟨"system", "sys"⟩ ::
          ((if ([⟨"T", "C", "X"⟩] : List Knowledge) = [] then []
            else [⟨"system", getKnowledgeContext (some [⟨"T", "C", "X"⟩])⟩]) ++
            (([⟨"assistant", "previo", false, ""⟩] : List Persisted).map
              (fun x => (⟨x.role, x.content⟩ : GoMsg)) ++
              [⟨"user", "hola" ++ "!"⟩]))) ∧
    (getKnowledgeContext (some [⟨"T", "C", "X"⟩]) = "" ↔
      ([⟨"T", "C", "X"⟩] : List Knowledge) = []) ∧
    (sendMessageModel [] "sys" "g" 3 (fun _ => .http 200 "ok") none
        [⟨"assistant", "previo", false, ""⟩] (some [⟨"T", "C", "X"⟩])
        (fun s => s ++ "!") "hola").2 =
      [⟨"assistant", "previo", false, ""⟩] ++ [userRow "hola"] :=
  c7_theorem [] "sys" "g" 3 (fun _ => .http 200 "ok") none
    [⟨"assistant", "previo", false, ""⟩] [⟨"T", "C", "X"⟩] (fun s => s ++ "!")
    "hola"
    (sendMessageModel [] "sys" "g" 3 (fun _ => .http 200 "ok") none
      [⟨"assistant", "previo", false, ""⟩] (some [⟨"T", "C", "X"⟩])
      (fun s => s ++ "!") "hola").1
    (sendMessageModel [] "sys" "g" 3 (fun _ => .http 200 "ok") none
      [⟨"assistant", "previo", false, ""⟩] (some [⟨"T", "C", "X"⟩])
      (fun s => s ++ "!") "hola").2
    rfl

/-- C8: a reload over fetched rows always succeeds (returns no error); a
row survives the load step iff it is not a regex rule with an uncompilable
pattern; the installed names are exactly the surviving rows' names in
order; such a regex rule is itself excluded; and every other row is
installed with its id, name and action intact. -/
theorem c8_theorem (compile : String → Option (String → String))
    (rows : List FilterRow) :
    reloadFiltersE compile (.ok rows) = .ok (reloadFilters compile rows) ∧
    (∀ r, (loadFilter compile r).isSome = true ↔
      ¬(r.filterType = "regex" ∧ compile r.pattern = none)) ∧
    (reloadFilters compile rows).map (fun f => f.name) =
      (rows.filter (fun r => (loadFilter compile r).isSome)).map
        (fun r => r.name) ∧
    (∀ r ∈ rows, r.filterType = "regex" → compile r.pattern = none →
      loadFilter compile r = none) ∧
    (∀ r ∈ rows, ¬(r.filterType = "regex" ∧ compile r.pattern = none) →
      ∃ f ∈ reloadFilters compile rows,
        f.id = r.id ∧ f.name = r.name ∧ f.action = r.action) := by
  refine ⟨rfl, ?_, ?_, ?_, ?_⟩
  · intro r
    rw [Option.isSome_iff_ne_none]
    exact not_congr loadFilter_none_iff
  · unfold reloadFilters
    induction rows with
    | nil => rfl
    | cons r t ih =>
      cases hl : loadFilter compile r with
      | none => simp [List.filterMap_cons, List.filter_cons, hl, ih]
      | some f =>
        simp [List.filterMap_cons, List.filter_cons, hl, ih,
          (loadFilter_fields2 hl).2.1]
  · intro r _ h1r h2r
    exact loadFilter_none_iff.mpr ⟨h1r, h2r⟩
  · intro r hr hgood
    obtain ⟨f, hf⟩ : ∃ f, loadFilter compile r = some f := by
      cases hl : loadFilter compile r with
      | none => exact absurd (loadFilter_none_iff.mp hl) hgood
      | some f => exact ⟨f, rfl⟩
    rcases loadFilter_fields2 hf with ⟨hid, hname, haction, _⟩
    exact ⟨f, List.mem_filterMap.mpr ⟨r, hr, hf⟩, hid, hname, haction⟩

/-- C8 witness: loading a failing regex rule next to a keyword rule drops
only the regex rule, keeps the keyword rule, and the reload returns no
error. -/
theorem c8_witness :
    loadFilter compileNone badRegexRow = none ∧
    (∃ f ∈ reloadFilters compileNone [badRegexRow, salRow],
      f.id = salRow.id ∧ f.name = salRow.name ∧ f.action = salRow.action) ∧
    reloadFiltersE compileNone (.ok [badRegexRow, salRow]) =
      .ok (reloadFilters compileNone [badRegexRow, salRow]) ∧
    (reloadFilters compileNone [badRegexRow, salRow]).map (fun f => f.name) =
      ([badRegexRow, salRow].filter
        (fun r => (loadFilter compileNone r).isSome)).map (fun r => r.name) :=
  ⟨(c8_theorem compileNone [badRegexRow, salRow]).2.2.2.1 badRegexRow
      (by decide) rfl rfl,
    (c8_theorem compileNone [badRegexRow, salRow]).2.2.2.2 salRow (by decide)
      (fun hc => absurd hc.1 (by decide)),
    (c8_theorem compileNone [badRegexRow, salRow]).1,
    (c8_theorem compileNone [badRegexRow, salRow]).2.2.1⟩

/-- C9: every verdict returned by `checkContent` has `blocked = true`
exactly when its action is `block` (warn/log verdicts never block); and
the spec scenario — the warn rule
`{kind: keyword, pattern: "salario,sueldo", appliesTo: both}` on input
`"cuanto es mi salario"` — yields a non-blocking verdict naming the rule
with a reason containing `"Advertencia"`. -/
theorem c9_theorem :
    (∀ (filters : List SecurityFilter) (content dir : String)
        (res : FilterResult),
      checkContent filters content dir = some res →
      (res.blocked = true ↔ res.action = "block")) ∧
    checkContent (reloadFilters compileNone [salRow]) "cuanto es mi salario"
        "input" =
      some { blocked := false, filterID := 1, filterName := "Filtro Salarios",
             action := "warn", severity := "medium",
             reason := "Advertencia de seguridad: Filtro Salarios",
             matchedText := "salario" } ∧
    goContains "Advertencia de seguridad: Filtro Salarios" "Advertencia" =
      true := by
  refine ⟨?_, by decide, by decide⟩
  intro filters content dir res h
  unfold checkContent at h
  rcases findSome?_split h with ⟨l1, f, l2, hl, hf, hnone⟩
  unfold evalFilter at hf
  split at hf
  · exact absurd hf (by simp)
  · rcases Option.map_eq_some'.mp hf with ⟨mt, hmt, hres⟩
    rw [← hres]
    simp [mkFilterResult]

/-- C9 witness: the blocked-iff-block equivalence at the scenario's warn
verdict. -/
theorem c9_witness : (false = true ↔ ("warn" : String) = "block") :=
  c9_theorem.1 (reloadFilters compileNone [salRow]) "cuanto es mi salario"
    "input"
    { blocked := false, filterID := 1, filterName := "Filtro Salarios",
      action := "warn", severity := "medium",
      reason := "Advertencia de seguridad: Filtro Salarios",
      matchedText := "salario" } (by decide)

/-- C10: an active keyword rule whose comma-separated pattern contains a
term that trims to the empty string matches every text through the
substring test, so once evaluation reaches it (no earlier rule applies
and matches), `checkContent` returns that rule's verdict for every input
in its direction. -/
theorem c10_theorem (compile : String → Option (String → String))
    (r : FilterRow) (f : SecurityFilter) (pre rest : List SecurityFilter)
    (content dir : String)
    (hload : loadFilter compile r = some f)
    (hty : r.filterType = "keyword")
    (hempty : ∃ t ∈ splitComma (goToLower r.pattern).data, trimL t = [])
    (happlies : f.appliesTo = "both" ∨ f.appliesTo = dir)
    (hpre : ∀ g ∈ pre, evalFilter content (goToLower content) dir g = none) :
    ∃ res, checkContent (pre ++ f :: rest) content dir = some res ∧
      res.filterID = f.id ∧ res.filterName = f.name ∧ res.action = f.action ∧
      res.severity = f.severity := by
  have hkw : f.keywords = (splitComma (goToLower r.pattern).data).map
      (fun t => (⟨trimL t⟩ : String)) := by
    unfold loadFilter at hload
    split at hload
    next hty2 => rw [hty] at hty2; simp at hty2
    next => cases hload; rfl
    next x h1 h2 => exact (h2 hty).elim
  have hmem : ("" : String) ∈ f.keywords := by
    rw [hkw]
    rcases hempty with ⟨t, ht, htr⟩
    refine List.mem_map.mpr ⟨t, ht, ?_⟩
    rw [htr]
  have hfind : (f.keywords.find?
      (fun k => goContains (goToLower content) k)).isSome = true :=
    List.find?_isSome.mpr ⟨"", hmem, containsL_right_nil _⟩
  obtain ⟨k, hk⟩ := Option.isSome_iff_exists.mp hfind
  have hft : f.filterType = "keyword" := by
    rw [(loadFilter_fields2 hload).2.2.2.2.2, hty]
  have hmatch : matchFilter f content (goToLower content) = some k := by
    simp [matchFilter, hft, hk]
  have heval : evalFilter content (goToLower content) dir f =
      some (mkFilterResult f k) := by
    have hg : ¬(f.appliesTo ≠ "both" ∧ f.appliesTo ≠ dir) := by
      rcases happlies with h | h
      · intro hc
        exact hc.1 h
      · intro hc
        exact hc.2 h
    unfold evalFilter
    rw [if_neg hg, hmatch]
    rfl
  refine ⟨mkFilterResult f k, ?_, rfl, rfl, rfl, rfl⟩
  unfold checkContent
  rw [List.findSome?_append]
  have hpre2 : pre.findSome? (evalFilter content (goToLower content) dir) =
      none := List.findSome?_eq_none_iff.mpr hpre
  rw [hpre2]
  simp [List.findSome?_cons, heval]

/-- C10 witness: the trailing-comma rule matches the keyword-free input
`"zzz"` in the output direction. -/
theorem c10_witness :
    ∃ res, checkContent ([] ++ fTrail :: []) "zzz" "output" = some res ∧
      res.filterID = fTrail.id ∧ res.filterName = fTrail.name ∧
      res.action = fTrail.action ∧ res.severity = fTrail.severity :=
  c10_theorem compileNone trailRow fTrail [] [] "zzz" "output" rfl rfl
    ⟨[], by decide, rfl⟩ (Or.inl rfl)
    (fun g hg => absurd hg (List.not_mem_nil g))

end ChatIA
